import Mathlib

/-!
Shallow embedding of the rsshub-mcp repository (crates `rsshub-api` and
`rsshub-mcp`) for checking its natural-language specification.

Conventions of the embedding:
* Rust `Result<T, eyre::Report>` becomes `Except String T` (the error is the
  rendered message).
* The HTTP transport is an oracle `attempts : Nat → Except String Response`
  giving the outcome of the i-th `client.get(url).send()` call; a `Response`
  carries its status classification and the decoded body.  Each operation
  additionally reports how many transport attempts it performed (ghost
  instrumentation used to state the "no second network fetch" / "never
  retried" properties; the source does not return this number).
* `std::time::Instant` becomes a `Nat` count of elapsed seconds, matching the
  source's `t.elapsed().as_secs()` granularity.
* Rust's `to_lowercase` is modelled by `strToLower` (ASCII case folding;
  the catalog keys and queries involved are ASCII).
* String length is modelled in characters; the source uses byte length, and
  the two agree on ASCII data.
-/

namespace Rsshub

/-! ### String helpers mirroring the Rust `str` operations used -/

/-- `needle.isPrefixOf hay` on character lists, mirroring Rust slice prefix
matching. -/
def isPrefixList : List Char → List Char → Bool
  | [], _ => true
  | _ :: _, [] => false
  | a :: as, b :: bs => a == b && isPrefixList as bs

/-- Substring occurrence of `needle` in `hay` (Rust `str::contains`). -/
def isInfixList (needle : List Char) : List Char → Bool
  | [] => isPrefixList needle []
  | b :: rest => isPrefixList needle (b :: rest) || isInfixList needle rest

/-- Rust `hay.contains(needle)`. -/
def strContains (hay needle : String) : Bool :=
  isInfixList needle.data hay.data

/-- Rust `hay.starts_with(needle)`. -/
def strStartsWith (hay needle : String) : Bool :=
  isPrefixList needle.data hay.data

/-- Rust `str::to_lowercase`, modelled as per-character ASCII case folding
(kept in this reducible char-list form so that concrete instances evaluate). -/
def strToLower (s : String) : String :=
  ⟨s.data.map Char.toLower⟩

/-- Rust `path.strip_prefix('/').unwrap_or(path)` as used by `get_feed`. -/
def stripLeadingSlash (p : String) : String :=
  match p.data with
  | '/' :: rest => String.mk rest
  | _ => p

/-! ### Transport model and the retry helper (`get_with_retry`) -/

/-- The parts of a `reqwest::Response` the client inspects: the
`status().is_success()` classification and the decoded body
(`response.json()` / `response.text()`), already mapped to the target type. -/
structure Response (V : Type) where
  statusSuccess : Bool
  body : Except String V
deriving Repr

/-- Loop body of `get_with_retry`: `i` is the index of the next transport
attempt, `remaining` the number of loop iterations left (`retries - i`),
`lastErr` the `last_err` variable.  Returns the result together with the
total number of `send()` calls performed. -/
def getWithRetryGo (attempts : Nat → Except String (Response V)) :
    Nat → Nat → Option String → Except String (Response V) × Nat
  | i, 0, lastErr =>
    (Except.error ("HTTP GET failed after retries: " ++ lastErr.getD ""), i)
  | i, remaining + 1, _lastErr =>
    match attempts i with
    | Except.ok resp => (Except.ok resp, i + 1)
    | Except.error e => getWithRetryGo attempts (i + 1) remaining (some e)

/-- `RsshubApiClient::get_with_retry`: attempt up to `retries` sends; a
transport-level error is recorded and retried (after a backoff sleep, which
has no effect in this model); any response that arrives is returned
immediately.  Exhaustion yields the aggregated error message. -/
def get_with_retry (retries : Nat) (attempts : Nat → Except String (Response V)) :
    Except String (Response V) × Nat :=
  getWithRetryGo attempts 0 retries none

/-! ### Feed parsing (`parse_rss_content`, `get_feed`) -/

/-- An item of an `rss::Channel` as consumed by `parse_rss_content`. -/
structure ChannelItem where
  title : Option String
  description : Option String
  link : Option String
  pub_date : Option String
  author : Option String
  categories : List String
deriving Repr, DecidableEq

/-- The parts of an `rss::Channel` consumed by `parse_rss_content`. -/
structure Channel where
  title : String
  description : String
  items : List ChannelItem
deriving Repr, DecidableEq

structure FeedItem where
  title : String
  description : String
  link : String
  pub_date : Option String
  author : Option String
  categories : List String
deriving Repr, DecidableEq

structure FeedResponse where
  title : String
  description : String
  items : List FeedItem
  raw_content : Option String
deriving Repr, DecidableEq

/-- `RsshubApiClient::parse_rss_content`.  The external library call
`rss::Channel::read_from` is the oracle `channelRead` (`some` = `Ok`,
`none` = `Err`).  On a parsed channel the item fields are extracted with
`unwrap_or("")`; on parse failure the fallback document is returned.  Both
paths attach the original body and both are `Ok`. -/
def parse_rss_content (channelRead : String → Option Channel) (content : String) :
    Except String FeedResponse :=
  match channelRead content with
  | some ch =>
    Except.ok
      { title := ch.title
        description := ch.description
        items := ch.items.map fun it =>
          { title := it.title.getD ""
            description := it.description.getD ""
            link := it.link.getD ""
            pub_date := it.pub_date
            author := it.author
            categories := it.categories }
        raw_content := some content }
  | none =>
    Except.ok
      { title := "RSS Feed"
        description := "RSS feed content"
        items := []
        raw_content := some content }

/-- `RsshubApiClient::get_feed`: strip one leading `/`, fetch with retry,
fail on a non-2xx status with a message naming the path, otherwise take the
body text and parse it.  The second component counts transport attempts. -/
def get_feed (retries : Nat) (attempts : Nat → Except String (Response String))
    (channelRead : String → Option Channel) (path : String) :
    Except String FeedResponse × Nat :=
  let path' := stripLeadingSlash path
  match get_with_retry retries attempts with
  | (Except.ok resp, n) =>
    (if resp.statusSuccess then
        match resp.body with
        | Except.ok content => parse_rss_content channelRead content
        | Except.error e => Except.error e
      else Except.error ("Failed to fetch RSS feed from path: " ++ path'), n)
  | (Except.error e, n) => (Except.error e, n)

/-! ### Cache store (`CacheStore`) and the catalog client operations -/

/-- `CacheStore`: a map from key to cached JSON value and the instant it was
stored.  The `HashMap` is modelled by an association list whose `lookup`
finds the most recently inserted binding for a key. -/
structure CacheStore (V : Type) where
  json : List (String × V × Nat)
deriving Repr

/-- `CacheStore::get_json`: a stored value is returned iff its age
`now - stored_at` (in whole seconds) is at most `ttl_secs`. -/
def CacheStore.get_json (c : CacheStore V) (key : String) (ttl_secs now : Nat) :
    Option V :=
  match c.json.lookup key with
  | some (v, t) => if now - t ≤ ttl_secs then some v else none
  | none => none

/-- `CacheStore::put_json`: wholesale replacement of the slot, stamped with
the current instant (`HashMap::insert` replaces any previous binding). -/
def CacheStore.put_json (c : CacheStore V) (key : String) (v : V) (now : Nat) :
    CacheStore V :=
  ⟨(key, v, now) :: c.json.filter fun kv => kv.1 ≠ key⟩

/-- The keys present in the cache. -/
def CacheStore.keys (c : CacheStore V) : List String :=
  c.json.map fun kv => kv.1

/-- Shared shape of `get_all_namespaces` and `get_all_radar_rules`: consult
the cache slot `key` under `ttl`; on a valid hit return it without touching
the network (the serde round trip through `serde_json::Value` is the
identity here); otherwise fetch with retry, require a 2xx status, decode,
and overwrite the slot.  Returns (result, new cache, transport attempts). -/
def bulkCachedGet (key failMsg : String) (ttl retries : Nat)
    (attempts : Nat → Except String (Response V)) (st : CacheStore V) (now : Nat) :
    Except String V × CacheStore V × Nat :=
  match st.get_json key ttl now with
  | some v => (Except.ok v, st, 0)
  | none =>
    match get_with_retry retries attempts with
    | (Except.ok resp, n) =>
      if resp.statusSuccess then
        match resp.body with
        | Except.ok v => (Except.ok v, st.put_json key v now, n)
        | Except.error e => (Except.error e, st, n)
      else (Except.error failMsg, st, n)
    | (Except.error e, n) => (Except.error e, st, n)

/-- `RsshubApiClient::get_all_namespaces` (cache key `"namespaces"`). -/
def get_all_namespaces (ttl retries : Nat)
    (attempts : Nat → Except String (Response V)) (st : CacheStore V) (now : Nat) :
    Except String V × CacheStore V × Nat :=
  bulkCachedGet "namespaces" "Failed to fetch namespaces" ttl retries attempts st now

/-- `RsshubApiClient::get_all_radar_rules` (cache key `"radar_rules"`). -/
def get_all_radar_rules (ttl retries : Nat)
    (attempts : Nat → Except String (Response V)) (st : CacheStore V) (now : Nat) :
    Except String V × CacheStore V × Nat :=
  bulkCachedGet "radar_rules" "Failed to fetch radar rules" ttl retries attempts st now

/-- Shared shape of the targeted operations `get_namespace`,
`get_radar_rule`, `get_category`: fetch with retry, reject a non-2xx status
with the fixed message, decode on success.  No cache access appears in the
source of any of these. -/
def targetedGet (failMsg : String) (retries : Nat)
    (attempts : Nat → Except String (Response V)) : Except String V × Nat :=
  match get_with_retry retries attempts with
  | (Except.ok resp, n) =>
    (if resp.statusSuccess then resp.body else Except.error failMsg, n)
  | (Except.error e, n) => (Except.error e, n)

/-- `RsshubApiClient::get_namespace`. -/
def get_namespace (retries : Nat) (attempts : Nat → Except String (Response V)) :
    Except String V × Nat :=
  targetedGet "Failed to fetch namespace" retries attempts

/-- `RsshubApiClient::get_radar_rule`. -/
def get_radar_rule (retries : Nat) (attempts : Nat → Except String (Response V)) :
    Except String V × Nat :=
  targetedGet "Failed to fetch radar rule" retries attempts

/-- `RsshubApiClient::get_category`. -/
def get_category (retries : Nat) (attempts : Nat → Except String (Response V)) :
    Except String V × Nat :=
  targetedGet "Failed to fetch category" retries attempts

/-! ### Sequences of client operations (for the cache-shape invariant) -/

/-- One client operation, carrying the transport oracle and the instant at
which it runs.  Request parameters (namespace name, domain, …) only shape
the URL and are irrelevant to cache state, so they are omitted. -/
inductive ClientOp (V : Type) where
  | allNamespaces (attempts : Nat → Except String (Response V)) (now : Nat)
  | allRadarRules (attempts : Nat → Except String (Response V)) (now : Nat)
  | oneNamespace (attempts : Nat → Except String (Response V)) (now : Nat)
  | oneRadarRule (attempts : Nat → Except String (Response V)) (now : Nat)
  | oneCategory (attempts : Nat → Except String (Response V)) (now : Nat)
  | feed (attempts : Nat → Except String (Response String))
      (channelRead : String → Option Channel) (path : String) (now : Nat)

/-- The cache state after running one operation. -/
def stepCache (ttlN ttlR retries : Nat) (st : CacheStore V) :
    ClientOp V → CacheStore V
  | ClientOp.allNamespaces attempts now =>
    (get_all_namespaces ttlN retries attempts st now).2.1
  | ClientOp.allRadarRules attempts now =>
    (get_all_radar_rules ttlR retries attempts st now).2.1
  | ClientOp.oneNamespace _ _ => st
  | ClientOp.oneRadarRule _ _ => st
  | ClientOp.oneCategory _ _ => st
  | ClientOp.feed _ _ _ _ => st

/-- The cache state after a sequence of operations. -/
def runOps (ttlN ttlR retries : Nat) (st : CacheStore V) :
    List (ClientOp V) → CacheStore V
  | [] => st
  | op :: rest => runOps ttlN ttlR retries (stepCache ttlN ttlR retries st op) rest

/-! ### Catalog data model (`rsshub-api` types used by the service) -/

/-- A `serde_json::Value` as inspected by the dispatcher: only `as_str` and
`as_u64` are ever applied, so every non-string non-integer shape is
collapsed into `other`. -/
inductive JVal where
  | str (s : String)
  | num (n : Int)
  | other
deriving Repr, DecidableEq

/-- `serde_json::Value::as_str`. -/
def JVal.asStr : JVal → Option String
  | JVal.str s => some s
  | _ => none

/-- `serde_json::Value::as_u64` (negative integers decode to `None`). -/
def JVal.asU64 : JVal → Option Nat
  | JVal.num n => if 0 ≤ n then some n.toNat else none
  | _ => none

/-- `MultiType`: single string or list of strings. -/
inductive MultiType where
  | single (s : String)
  | multiple (ss : List String)
deriving Repr, DecidableEq

structure RadarItem where
  source : MultiType
  target : Option String
  title : Option String
deriving Repr, DecidableEq

inductive RadarType where
  | single (item : RadarItem)
  | multiple (items : List RadarItem)
deriving Repr, DecidableEq

structure ConfigDetail where
  name : String
  optional : Option Bool
  description : Option String
deriving Repr, DecidableEq

inductive RequireConfig where
  | bool (b : Bool)
  | list (cs : List ConfigDetail)
deriving Repr, DecidableEq

structure Features where
  require_config : Option RequireConfig
  require_puppeteer : Option Bool
  anti_crawler : Option Bool
  support_radar : Option Bool
  support_bt : Option Bool
  support_podcast : Option Bool
  support_scihub : Option Bool
deriving Repr, DecidableEq

structure RouteDetails where
  path : MultiType
  name : String
  url : Option String
  maintainers : List String
  example' : Option String
  parameters : Option (List (String × JVal))
  description : Option String
  categories : Option (List String)
  features : Option Features
  radar : Option RadarType
  location : Option String
  view : Option Nat
deriving Repr, DecidableEq

/-- `RoutesMap`; the `HashMap<String, RouteDetails>` is an association list
in its (arbitrary) iteration order. -/
structure RoutesMap where
  routes : Option (List (String × RouteDetails))
deriving Repr, DecidableEq

/-- `NamespaceResp = HashMap<String, RoutesMap>` in iteration order. -/
def NamespaceResp := List (String × RoutesMap)

/-! ### RouteSearchEngine: `handle_search_routes` -/

/-- One entry of the `hits` vector built by `handle_search_routes` (`ns` is
the JSON field `"namespace"`, a Lean keyword). -/
structure Hit where
  ns : String
  route_key : String
  name : String
  description : Option String
  example' : Option String
deriving Repr, DecidableEq

/-- The `matches` closure of `handle_search_routes`: case-insensitive
substring test of the already-lowercased query `q` against route key, name,
description and example, missing fields counting as non-matching. -/
def routeMatches (q : String) (key : String) (d : RouteDetails) : Bool :=
  strContains (strToLower key) q || strContains (strToLower d.name) q ||
    (d.description.map fun s => strContains (strToLower s) q).getD false ||
    (d.example'.map fun s => strContains (strToLower s) q).getD false

def mkHit (ns key : String) (d : RouteDetails) : Hit :=
  ⟨ns, key, d.name, d.description, d.example'⟩

/-- Inner collection loop over one namespace's routes: each match is pushed
and the loop breaks once `hits.len() >= limit` — the bound is checked only
after the push. -/
def collectHits (q : String) (limit : Nat) (ns : String) :
    List (String × RouteDetails) → List Hit → List Hit
  | [], acc => acc
  | (key, d) :: rest, acc =>
    if routeMatches q key d then
      let acc' := acc ++ [mkHit ns key d]
      if limit ≤ acc'.length then acc' else collectHits q limit ns rest acc'
    else collectHits q limit ns rest acc

/-- Outer loop over all namespaces (`'outer`): a namespace with
`routes = None` is skipped; the labeled break fires as soon as the inner
loop filled the quota. -/
def collectHitsAll (q : String) (limit : Nat) :
    List (String × RoutesMap) → List Hit → List Hit
  | [], acc => acc
  | (ns, rm) :: rest, acc =>
    match rm.routes with
    | none => collectHitsAll q limit rest acc
    | some routes =>
      let acc' := collectHits q limit ns routes acc
      if limit ≤ acc'.length then acc' else collectHitsAll q limit rest acc'

/-- The hit list computed by `handle_search_routes` when a `namespace`
argument is given: `routesMap` is the result of `get_namespace(ns)`.
`limit.unwrap_or(20)` is applied as in the source; rendering of the hits to
text or pretty JSON is not modelled — the claims are about the collection
phase. -/
def searchRoutesNsHits (query : String) (ns : String) (limitArg : Option Nat)
    (routesMap : RoutesMap) : List Hit :=
  match routesMap.routes with
  | none => []
  | some routes => collectHits (strToLower query) (limitArg.getD 20) ns routes []

/-- The hit list computed by `handle_search_routes` when no `namespace`
argument is given: `catalog` is the result of `get_all_namespaces()`. -/
def searchRoutesAllHits (query : String) (limitArg : Option Nat)
    (catalog : List (String × RoutesMap)) : List Hit :=
  collectHitsAll (strToLower query) (limitArg.getD 20) catalog []

/-! ### RouteSearchEngine: `handle_suggest_route_keys` -/

/-- The 3-component ranking key computed inside `sort_by_key`: `p` is the
already-lowercased partial, `k` a route key. -/
def suggestKey (p : String) (k : String) : Nat × Nat × Nat :=
  let lk := strToLower k
  (if strContains lk p then 0 else 1,
   if strStartsWith lk p then 0 else 1,
   max lk.length p.length - min lk.length p.length)

/-- Lexicographic order on the ranking tuples (Rust's derived `Ord` on
3-tuples of integers). -/
def tupLe (a b : Nat × Nat × Nat) : Prop :=
  a.1 < b.1 ∨ (a.1 = b.1 ∧ (a.2.1 < b.2.1 ∨ (a.2.1 = b.2.1 ∧ a.2.2 ≤ b.2.2)))

instance : DecidableRel tupLe := fun a b => by
  unfold tupLe; infer_instance

/-- The comparison used by the sort on keys. -/
def suggestLe (p : String) (a b : String) : Prop :=
  tupLe (suggestKey p a) (suggestKey p b)

instance (p : String) : DecidableRel (suggestLe p) := fun a b => by
  unfold suggestLe; infer_instance

/-- The sorted key list of `handle_suggest_route_keys`.  Rust's
`sort_by_key` is a stable sort; every stable sort of a total preorder has
the same output, so it is embedded as Mathlib's (stable) insertion sort. -/
def suggestSorted (partialArg : String) (keys : List String) : List String :=
  let p := strToLower partialArg
  List.insertionSort (suggestLe p) keys

/-- The key list returned by `handle_suggest_route_keys`
(`limit.unwrap_or(10)` applied as in the source; the final textual
rendering joins these with newlines and is not modelled). -/
def handle_suggest_route_keys (partialArg : String) (limitArg : Option Nat)
    (keys : List String) : List String :=
  (suggestSorted partialArg keys).take (limitArg.getD 10)

/-! ### RouteSearchEngine: `handle_search_namespaces` -/

/-- The filter of `handle_search_namespaces` over the catalog keys. -/
def searchNamespacesFiltered (q : String) (keys : List String) : List String :=
  keys.filter fun k => strContains (strToLower k) (strToLower q)

/-- `handle_search_namespaces`, at the level of the strings it returns. -/
def handle_search_namespaces (query : Option String) (keys : List String) :
    String :=
  match query with
  | some q =>
    let filtered := searchNamespacesFiltered q keys
    if filtered.isEmpty then
      "No namespaces found matching '" ++ q ++ "'. Available namespaces: " ++
        String.intercalate ", " keys
    else
      "Namespaces matching '" ++ q ++ "':\n" ++ String.intercalate "\n" filtered
  | none =>
    "Available namespaces (" ++ toString keys.length ++ " total):\n" ++
      String.intercalate ", " keys

/-! ### ToolDispatcher: `handle_tool_call` -/

/-- The two `MCPError` constructors produced by the dispatcher. -/
inductive MCPError where
  | invalidParams (msg : String)
  | methodNotFound (msg : String)
deriving Repr, DecidableEq

/-- `ToolCallResponse`: the content texts and the `is_error` flag. -/
structure ToolCallResponse where
  contentTexts : List String
  is_error : Option Bool
deriving Repr, DecidableEq

/-- The tool-call arguments: `request.arguments` is an optional JSON object,
modelled as an optional association list. -/
def ToolArgs := Option (List (String × JVal))

/-- `args.get(k).and_then(|v| v.as_str())` composed with the
`request.arguments.as_ref()` step. -/
def getStrArg (args : ToolArgs) (k : String) : Option String :=
  (Option.bind args fun l => l.lookup k).bind JVal.asStr

/-- `args.get(k).and_then(|v| v.as_u64()).map(|v| v as usize)`. -/
def getNatArg (args : ToolArgs) (k : String) : Option Nat :=
  (Option.bind args fun l => l.lookup k).bind JVal.asU64

/-- The component invocation the dispatcher routes to after argument
extraction.  The component handlers themselves (4.1–4.3) are run by the
oracle in `handle_tool_call`. -/
inductive CompCall where
  | getAllNamespaces
  | getNamespace (ns : String) (fmt : Option String)
  | searchNamespaces (q : Option String)
  | getRadarRules (fmt : Option String)
  | getRadarRule (ruleName : String) (fmt : Option String)
  | getCategories
  | getCategory (cat : String) (fmt : Option String)
  | getFeed (path : String) (fmt : Option String)
  | searchRoutes (q : String) (ns : Option String) (lim : Option Nat)
      (fmt : Option String)
  | getRouteDetail (ns key : String) (fmt : Option String)
  | suggestRouteKeys (ns part : String) (lim : Option Nat)
deriving Repr, DecidableEq

/-- The `let result = match request.name.as_str() { ... }` stage of
`handle_tool_call`: validate/extract the arguments of each tool and name the
component call, or fail with the protocol-level `MCPError` the source
returns early (`?` / `return Err(...)`). -/
def dispatchTool (name : String) (args : ToolArgs) : Except MCPError CompCall :=
  match name with
  | "get_all_namespaces" => Except.ok CompCall.getAllNamespaces
  | "get_namespace" =>
    match getStrArg args "namespace" with
    | none => Except.error (MCPError.invalidParams "namespace parameter is required")
    | some ns => Except.ok (CompCall.getNamespace ns (getStrArg args "format"))
  | "search_namespaces" => Except.ok (CompCall.searchNamespaces (getStrArg args "query"))
  | "get_radar_rules" => Except.ok (CompCall.getRadarRules (getStrArg args "format"))
  | "get_radar_rule" =>
    match (getStrArg args "rule_name").orElse fun _ => getStrArg args "domain" with
    | none =>
      Except.error (MCPError.invalidParams "rule_name or domain parameter is required")
    | some ruleName =>
      Except.ok (CompCall.getRadarRule ruleName (getStrArg args "format"))
  | "get_categories" => Except.ok CompCall.getCategories
  | "get_category" =>
    match getStrArg args "category" with
    | none => Except.error (MCPError.invalidParams "category parameter is required")
    | some cat => Except.ok (CompCall.getCategory cat (getStrArg args "format"))
  | "get_feed" =>
    match getStrArg args "path" with
    | none => Except.error (MCPError.invalidParams "path parameter is required")
    | some path => Except.ok (CompCall.getFeed path (getStrArg args "format"))
  | "search_routes" =>
    match args with
    | none => Except.error (MCPError.invalidParams "arguments are required")
    | some _ =>
      match getStrArg args "query" with
      | none => Except.error (MCPError.invalidParams "query parameter is required")
      | some q =>
        Except.ok (CompCall.searchRoutes q (getStrArg args "namespace")
          (getNatArg args "limit") (getStrArg args "format"))
  | "get_route_detail" =>
    match args with
    | none => Except.error (MCPError.invalidParams "arguments are required")
    | some _ =>
      match getStrArg args "namespace" with
      | none => Except.error (MCPError.invalidParams "namespace parameter is required")
      | some ns =>
        match getStrArg args "route_key" with
        | none => Except.error (MCPError.invalidParams "route_key parameter is required")
        | some key =>
          Except.ok (CompCall.getRouteDetail ns key (getStrArg args "format"))
  | "suggest_route_keys" =>
    match args with
    | none => Except.error (MCPError.invalidParams "arguments are required")
    | some _ =>
      match getStrArg args "namespace" with
      | none => Except.error (MCPError.invalidParams "namespace parameter is required")
      | some ns =>
        match getStrArg args "partial" with
        | none => Except.error (MCPError.invalidParams "partial parameter is required")
        | some part =>
          Except.ok (CompCall.suggestRouteKeys ns part (getNatArg args "limit"))
  | _ => Except.error (MCPError.methodNotFound ("Unknown tool: " ++ name))

/-- The final `match result { ... }` of `handle_tool_call`: a component
`Ok` becomes a non-error envelope, a component `Err` becomes a successful
envelope whose body is `"Error: <message>"` with `is_error = true`. -/
def wrapResult (result : Except String String) : ToolCallResponse :=
  match result with
  | Except.ok content => ⟨[content], some false⟩
  | Except.error e => ⟨["Error: " ++ e], some true⟩

/-- `RSSHubService::handle_tool_call`: the component handlers are the oracle
`comp` (their outcome is a rendered string or an error message).  Note that
an argument-validation failure or an unknown tool name short-circuits the
whole function with `Err(MCPError)` — only component failures reach
`wrapResult`. -/
def handle_tool_call (comp : CompCall → Except String String) (name : String)
    (args : ToolArgs) : Except MCPError ToolCallResponse :=
  match dispatchTool name args with
  | Except.error e => Except.error e
  | Except.ok call => Except.ok (wrapResult (comp call))

/-! ## Helper lemmas about the retry loop -/

/-- If every attempt in the window fails at the transport level, the loop
exhausts the window and aggregates the last error message. -/
theorem getWithRetryGo_all_fail {V : Type}
    (attempts : Nat → Except String (Response V)) (es : Nat → String) :
    ∀ remaining i lastErr, 0 < remaining →
      (∀ j, i ≤ j → j < i + remaining → attempts j = Except.error (es j)) →
      getWithRetryGo attempts i remaining lastErr =
        (Except.error ("HTTP GET failed after retries: " ++ es (i + remaining - 1)),
          i + remaining) := by
  intro remaining
  induction remaining with
  | zero => intro i lastErr h; omega
  | succ m ih =>
    intro i lastErr _ hfail
    have hi : attempts i = Except.error (es i) := hfail i (le_refl i) (by omega)
    rw [getWithRetryGo, hi]
    dsimp only
    cases m with
    | zero => simp [getWithRetryGo]
    | succ m' =>
      rw [ih (i + 1) (some (es i)) (by omega)
        (fun j hj1 hj2 => hfail j (by omega) (by omega))]
      have h1 : i + 1 + (m' + 1) - 1 = i + (m' + 1 + 1) - 1 := by omega
      have h2 : i + 1 + (m' + 1) = i + (m' + 1 + 1) := by omega
      rw [h1, h2]

/-- If the first `k` attempts fail at the transport level and attempt `k`
produces a response, the loop returns that response after exactly `k + 1`
sends, regardless of how many attempts remain. -/
theorem getWithRetryGo_arrival {V : Type}
    (attempts : Nat → Except String (Response V)) (es : Nat → String)
    (resp : Response V) :
    ∀ k i remaining lastErr,
      (∀ j, i ≤ j → j < i + k → attempts j = Except.error (es j)) →
      attempts (i + k) = Except.ok resp → k < remaining →
      getWithRetryGo attempts i remaining lastErr = (Except.ok resp, i + k + 1) := by
  intro k
  induction k with
  | zero =>
    intro i remaining lastErr _ hok hlt
    cases remaining with
    | zero => omega
    | succ m => rw [getWithRetryGo]; simp at hok; rw [hok]
  | succ m ih =>
    intro i remaining lastErr hfail hok hlt
    cases remaining with
    | zero => omega
    | succ r =>
      have hi : attempts i = Except.error (es i) := hfail i (le_refl i) (by omega)
      rw [getWithRetryGo, hi]
      dsimp only
      have := ih (i + 1) r (some (es i))
        (fun j hj1 hj2 => hfail j (by omega) (by omega))
        (by rw [show i + 1 + m = i + (m + 1) by omega]; exact hok) (by omega)
      rw [this]
      have h2 : i + 1 + m + 1 = i + (m + 1) + 1 := by omega
      rw [h2]

/-- **C3.** For a configured retry count `retries ≥ 1`: a transport that
fails on the first `retries - 1` attempts and then succeeds makes
`get_with_retry` return the arrived response (after exactly `retries`
sends); a transport that fails on all `retries` attempts makes it return
the aggregated error whose message carries the last underlying transport
cause. -/
theorem get_with_retry_retry_policy {V : Type} (retries : Nat)
    (hret : 1 ≤ retries) (attempts : Nat → Except String (Response V))
    (es : Nat → String) (resp : Response V) :
    ((∀ j, j < retries - 1 → attempts j = Except.error (es j)) →
      attempts (retries - 1) = Except.ok resp →
      get_with_retry retries attempts = (Except.ok resp, retries))
    ∧ ((∀ j, j < retries → attempts j = Except.error (es j)) →
      get_with_retry retries attempts =
        (Except.error ("HTTP GET failed after retries: " ++ es (retries - 1)),
          retries)) := by
  constructor
  · intro hfail hok
    unfold get_with_retry
    have := getWithRetryGo_arrival attempts es resp (retries - 1) 0 retries none
      (fun j hj1 hj2 => hfail j (by omega)) (by simpa using hok) (by omega)
    rw [this]; congr 1; omega
  · intro hfail
    unfold get_with_retry
    have := getWithRetryGo_all_fail attempts es retries 0 none (by omega)
      (fun j hj1 hj2 => hfail j (by omega))
    rw [this]; simp

/-- Witness for C3 at `retries = 2` with one transport failure then a
response carrying the value 7, and at a transport failing both times. -/
theorem get_with_retry_retry_policy_witness :
    get_with_retry 2
        (fun i => if i = 0 then Except.error "connection reset"
          else Except.ok (⟨true, Except.ok (7 : Nat)⟩ : Response Nat)) =
      (Except.ok ⟨true, Except.ok 7⟩, 2)
    ∧ get_with_retry 2
        (fun _ => (Except.error "dns failure" : Except String (Response Nat))) =
      (Except.error "HTTP GET failed after retries: dns failure", 2) := by
  constructor
  · exact (get_with_retry_retry_policy 2 (by decide) _
      (fun _ => "connection reset") ⟨true, Except.ok 7⟩).1
      (by
        intro j hj
        have h0 : j = 0 := by omega
        subst h0
        simp) rfl
  · exact (get_with_retry_retry_policy 2 (by decide) _
      (fun _ => "dns failure") ⟨true, Except.ok 0⟩).2
      (by intro j hj; rfl)

/-- **C5.** A response that arrives (at attempt `k`, after `k` transport
failures) stops the retry loop immediately — `k + 1` sends happen even when
more attempts remain — and a non-2xx status makes each fetch operation fail
at once with its fetch-failure message: `get_feed` names the requested
path, and the targeted catalog lookups name their endpoint.  Only
transport-level failures (no response) drive the retry loop (C3). -/
theorem non_2xx_never_retried {V : Type} (retries k : Nat)
    (attempts : Nat → Except String (Response V))
    (attemptsS : Nat → Except String (Response String)) (es : Nat → String)
    (resp : Response V) (respS : Response String)
    (channelRead : String → Option Channel) (path : String)
    (st : CacheStore V) (ttl now : Nat)
    (hfail : ∀ j, j < k → attempts j = Except.error (es j))
    (hfailS : ∀ j, j < k → attemptsS j = Except.error (es j))
    (hok : attempts k = Except.ok resp) (hokS : attemptsS k = Except.ok respS)
    (hlt : k < retries) (hstatus : resp.statusSuccess = false)
    (hstatusS : respS.statusSuccess = false)
    (hmiss : st.get_json "namespaces" ttl now = none) :
    get_with_retry retries attempts = (Except.ok resp, k + 1)
    ∧ get_feed retries attemptsS channelRead path =
        (Except.error ("Failed to fetch RSS feed from path: " ++
          stripLeadingSlash path), k + 1)
    ∧ get_namespace retries attempts =
        (Except.error "Failed to fetch namespace", k + 1)
    ∧ get_radar_rule retries attempts =
        (Except.error "Failed to fetch radar rule", k + 1)
    ∧ get_category retries attempts =
        (Except.error "Failed to fetch category", k + 1)
    ∧ get_all_namespaces ttl retries attempts st now =
        (Except.error "Failed to fetch namespaces", st, k + 1) := by
  have harr : get_with_retry retries attempts = (Except.ok resp, k + 1) := by
    unfold get_with_retry
    have := getWithRetryGo_arrival attempts es resp k 0 retries none
      (fun j hj1 hj2 => hfail j (by omega)) (by simpa using hok) hlt
    rw [this]
    norm_num
  have harrS : get_with_retry retries attemptsS = (Except.ok respS, k + 1) := by
    unfold get_with_retry
    have := getWithRetryGo_arrival attemptsS es respS k 0 retries none
      (fun j hj1 hj2 => hfailS j (by omega)) (by simpa using hokS) hlt
    rw [this]
    norm_num
  refine ⟨harr, ?_, ?_, ?_, ?_, ?_⟩
  · rw [get_feed, harrS]
    dsimp only
    rw [hstatusS]
    simp
  · rw [get_namespace, targetedGet, harr]
    dsimp only
    rw [hstatus]
    simp
  · rw [get_radar_rule, targetedGet, harr]
    dsimp only
    rw [hstatus]
    simp
  · rw [get_category, targetedGet, harr]
    dsimp only
    rw [hstatus]
    simp
  · rw [get_all_namespaces, bulkCachedGet, hmiss]
    dsimp only
    rw [harr]
    dsimp only
    rw [hstatus]
    simp

/-- Witness for C5: a 404-style response arrives on the very first attempt
(`k = 0`, `retries = 3`); each operation fails immediately after a single
send. -/
theorem non_2xx_never_retried_witness :
    get_with_retry 3 (fun _ => Except.ok (⟨false, Except.ok (0 : Nat)⟩ : Response Nat)) =
      (Except.ok ⟨false, Except.ok 0⟩, 1)
    ∧ get_feed 3 (fun _ => Except.ok (⟨false, Except.ok ""⟩ : Response String))
        (fun _ => none) "/bilibili/hot" =
      (Except.error "Failed to fetch RSS feed from path: bilibili/hot", 1)
    ∧ get_namespace 3 (fun _ => Except.ok (⟨false, Except.ok (0 : Nat)⟩ : Response Nat)) =
      (Except.error "Failed to fetch namespace", 1)
    ∧ get_radar_rule 3 (fun _ => Except.ok (⟨false, Except.ok (0 : Nat)⟩ : Response Nat)) =
      (Except.error "Failed to fetch radar rule", 1)
    ∧ get_category 3 (fun _ => Except.ok (⟨false, Except.ok (0 : Nat)⟩ : Response Nat)) =
      (Except.error "Failed to fetch category", 1)
    ∧ get_all_namespaces 300 3 (fun _ => Except.ok (⟨false, Except.ok (0 : Nat)⟩ : Response Nat))
        ⟨[]⟩ 50 =
      (Except.error "Failed to fetch namespaces", ⟨[]⟩, 1) :=
  non_2xx_never_retried 3 0 _ _ (fun _ => "") ⟨false, Except.ok 0⟩
    ⟨false, Except.ok ""⟩ (fun _ => none) "/bilibili/hot" ⟨[]⟩ 300 50
    (by intro j hj; omega) (by intro j hj; omega) rfl rfl (by omega) rfl rfl rfl

/-- **C2.** `parse_rss_content` is total: for every body it returns `Ok`,
always attaching the original body as `raw_content`; when the feed parser
rejects the body the fallback document (`"RSS Feed"` / `"RSS feed content"`
/ no items) is returned.  Consequently every successful `get_feed` call
carries a recoverable raw body. -/
theorem get_feed_parser_total (channelRead : String → Option Channel)
    (content : String) (retries : Nat)
    (attempts : Nat → Except String (Response String)) (path : String)
    (r : FeedResponse) (n : Nat) :
    (∃ fr, parse_rss_content channelRead content = Except.ok fr
      ∧ fr.raw_content = some content
      ∧ (channelRead content = none →
          fr = ⟨"RSS Feed", "RSS feed content", [], some content⟩))
    ∧ (get_feed retries attempts channelRead path = (Except.ok r, n) →
        r.raw_content.isSome = true) := by
  constructor
  · unfold parse_rss_content
    cases hc : channelRead content with
    | some ch => exact ⟨_, rfl, rfl, by intro h; simp [hc] at h⟩
    | none => exact ⟨_, rfl, rfl, fun _ => rfl⟩
  · intro hfeed
    unfold get_feed at hfeed
    rcases hw : get_with_retry retries attempts with ⟨res, m⟩
    rw [hw] at hfeed
    cases res with
    | error e => simp at hfeed
    | ok resp =>
      dsimp only at hfeed
      by_cases hs : resp.statusSuccess
      · rw [if_pos hs] at hfeed
        cases hb : resp.body with
        | error e => rw [hb] at hfeed; simp at hfeed
        | ok c =>
          rw [hb] at hfeed
          have := congrArg Prod.fst hfeed
          dsimp only at this
          unfold parse_rss_content at this
          cases hc : channelRead c with
          | some ch =>
            rw [hc] at this
            cases this
            rfl
          | none =>
            rw [hc] at this
            cases this
            rfl
      · rw [if_neg hs] at hfeed
        simp at hfeed

/-- Witness for C2: an HTML page is rejected by the feed parser, yet parsing
succeeds with the fallback document, and a successful `get_feed` on it has a
recoverable raw body. -/
theorem get_feed_parser_total_witness :
    (∃ fr, parse_rss_content (fun _ => none) "<html>hi</html>" = Except.ok fr
      ∧ fr.raw_content = some "<html>hi</html>"
      ∧ ((fun _ : String => (none : Option Channel)) "<html>hi</html>" = none →
          fr = ⟨"RSS Feed", "RSS feed content", [], some "<html>hi</html>"⟩))
    ∧ (FeedResponse.mk "RSS Feed" "RSS feed content" [] (some "<html>hi</html>")).raw_content.isSome
        = true :=
  ⟨(get_feed_parser_total (fun _ => none) "<html>hi</html>" 1
      (fun _ => Except.ok ⟨true, Except.ok "<html>hi</html>"⟩) "p"
      ⟨"RSS Feed", "RSS feed content", [], some "<html>hi</html>"⟩ 1).1,
    (get_feed_parser_total (fun _ => none) "<html>hi</html>" 1
      (fun _ => Except.ok ⟨true, Except.ok "<html>hi</html>"⟩) "p"
      ⟨"RSS Feed", "RSS feed content", [], some "<html>hi</html>"⟩ 1).2 rfl⟩

/-! ## Helper lemmas about the cache -/

/-- Looking up the slot just written. -/
theorem put_json_lookup {V : Type} (c : CacheStore V) (key : String) (v : V)
    (now : Nat) : (c.put_json key v now).json.lookup key = some (v, now) := by
  simp [CacheStore.put_json, List.lookup]

/-- After a successful bulk fetch-or-hit, the slot holds exactly the value
that was returned. -/
theorem bulkCachedGet_ok_lookup {V : Type} {key failMsg : String}
    {ttl retries : Nat} {attempts : Nat → Except String (Response V)}
    {st : CacheStore V} {now : Nat} {v : V} {st' : CacheStore V} {n : Nat}
    (h : bulkCachedGet key failMsg ttl retries attempts st now = (Except.ok v, st', n)) :
    ∃ t, st'.json.lookup key = some (v, t) := by
  unfold bulkCachedGet at h
  cases hg : st.get_json key ttl now with
  | some v0 =>
    rw [hg] at h
    cases h
    unfold CacheStore.get_json at hg
    cases hl : st.json.lookup key with
    | none => rw [hl] at hg; cases hg
    | some vt =>
      rw [hl] at hg
      rcases vt with ⟨v1, t1⟩
      dsimp only at hg
      by_cases hv : now - t1 ≤ ttl
      · rw [if_pos hv] at hg
        injection hg with hg1
        exact ⟨t1, by rw [hg1]⟩
      · rw [if_neg hv] at hg; cases hg
  | none =>
    rw [hg] at h
    rcases hw : get_with_retry retries attempts with ⟨res, m⟩
    rw [hw] at h
    cases res with
    | error e => simp at h
    | ok resp =>
      dsimp only at h
      by_cases hs : resp.statusSuccess
      · rw [if_pos hs] at h
        cases hb : resp.body with
        | error e => rw [hb] at h; simp at h
        | ok v1 =>
          rw [hb] at h
          have h1 : v1 = v := by
            have := congrArg (fun p => p.1) h
            simpa using this
          have h2 : st.put_json key v1 now = st' := by
            have := congrArg (fun p => p.2.1) h
            simpa using this
          refine ⟨now, ?_⟩
          rw [← h2, ← h1]
          exact put_json_lookup st key v1 now
      · rw [if_neg hs] at h; simp at h

/-- A valid slot short-circuits the bulk operation: the cached value is
returned with zero transport attempts and an unchanged cache. -/
theorem bulkCachedGet_hit {V : Type} (key failMsg : String) (ttl retries : Nat)
    (attempts : Nat → Except String (Response V)) (st : CacheStore V)
    (now t : Nat) (v : V) (hl : st.json.lookup key = some (v, t))
    (hval : now - t ≤ ttl) :
    bulkCachedGet key failMsg ttl retries attempts st now = (Except.ok v, st, 0) := by
  unfold bulkCachedGet CacheStore.get_json
  rw [hl]
  dsimp only
  rw [if_pos hval]

/-- **C4.** (i) After any call to `get_all_namespaces` that returns `Ok v`,
the `"namespaces"` slot holds `v` stamped at some instant `t`, and every
later call made while `now - t ≤ ttl` returns the identical value with zero
transport attempts (no network fetch) and leaves the cache untouched —
whatever its transport oracle would do.  (ii) The same for
`get_all_radar_rules` and its own TTL.  (iii) On a cache miss or stale
entry, a fetch that yields a 2xx response decoding to `v` overwrites the
slot wholesale with `v` stamped now. -/
theorem bulk_cache_ttl_behavior {V : Type} :
    (∀ (ttl r1 : Nat) (att1 : Nat → Except String (Response V))
        (st0 : CacheStore V) (t1 : Nat) (v : V) (st1 : CacheStore V) (n1 : Nat),
      get_all_namespaces ttl r1 att1 st0 t1 = (Except.ok v, st1, n1) →
      ∃ t, st1.json.lookup "namespaces" = some (v, t) ∧
        ∀ (t2 r2 : Nat) (att2 : Nat → Except String (Response V)),
          t2 - t ≤ ttl →
          get_all_namespaces ttl r2 att2 st1 t2 = (Except.ok v, st1, 0))
    ∧ (∀ (ttl r1 : Nat) (att1 : Nat → Except String (Response V))
        (st0 : CacheStore V) (t1 : Nat) (v : V) (st1 : CacheStore V) (n1 : Nat),
      get_all_radar_rules ttl r1 att1 st0 t1 = (Except.ok v, st1, n1) →
      ∃ t, st1.json.lookup "radar_rules" = some (v, t) ∧
        ∀ (t2 r2 : Nat) (att2 : Nat → Except String (Response V)),
          t2 - t ≤ ttl →
          get_all_radar_rules ttl r2 att2 st1 t2 = (Except.ok v, st1, 0))
    ∧ (∀ (key failMsg : String) (ttl retries : Nat)
        (attempts : Nat → Except String (Response V)) (st : CacheStore V)
        (now n : Nat) (resp : Response V) (v : V),
      st.get_json key ttl now = none →
      get_with_retry retries attempts = (Except.ok resp, n) →
      resp.statusSuccess = true → resp.body = Except.ok v →
      bulkCachedGet key failMsg ttl retries attempts st now =
        (Except.ok v, st.put_json key v now, n)) := by
  refine ⟨?_, ?_, ?_⟩
  · intro ttl r1 att1 st0 t1 v st1 n1 h1
    obtain ⟨t, hl⟩ := bulkCachedGet_ok_lookup h1
    exact ⟨t, hl, fun t2 r2 att2 hval =>
      bulkCachedGet_hit "namespaces" "Failed to fetch namespaces" ttl r2 att2
        st1 t2 t v hl hval⟩
  · intro ttl r1 att1 st0 t1 v st1 n1 h1
    obtain ⟨t, hl⟩ := bulkCachedGet_ok_lookup h1
    exact ⟨t, hl, fun t2 r2 att2 hval =>
      bulkCachedGet_hit "radar_rules" "Failed to fetch radar rules" ttl r2 att2
        st1 t2 t v hl hval⟩
  · intro key failMsg ttl retries attempts st now n resp v hmiss hw hs hb
    unfold bulkCachedGet
    rw [hmiss, hw]
    dsimp only
    rw [hs, hb]
    simp

/-- Witness for C4: a first `get_all_namespaces` at `t = 10` fetches the
value 5 and stores it; the slot is then valid at `t = 100` under
`ttl = 300` and the theorem yields the cached second call. -/
theorem bulk_cache_ttl_behavior_witness :
    ∃ t, (CacheStore.mk [("namespaces", (5 : Nat), 10)]).json.lookup "namespaces"
        = some (5, t) ∧
      ∀ (t2 r2 : Nat) (att2 : Nat → Except String (Response Nat)),
        t2 - t ≤ 300 →
        get_all_namespaces 300 r2 att2 ⟨[("namespaces", 5, 10)]⟩ t2 =
          (Except.ok 5, ⟨[("namespaces", 5, 10)]⟩, 0) :=
  bulk_cache_ttl_behavior.1 300 1 (fun _ => Except.ok ⟨true, Except.ok 5⟩)
    ⟨[]⟩ 10 5 ⟨[("namespaces", 5, 10)]⟩ 1 rfl

/-- Membership in the keys of a freshly written cache. -/
theorem mem_keys_put_json {V : Type} {st : CacheStore V} {key : String} {v : V}
    {now : Nat} {k : String} (h : k ∈ (st.put_json key v now).keys) :
    k = key ∨ k ∈ st.keys := by
  unfold CacheStore.put_json CacheStore.keys at *
  simp only [List.map_cons, List.mem_cons] at h
  rcases h with h | h
  · exact Or.inl h
  · right
    simp only [List.mem_map] at h ⊢
    rcases h with ⟨kv, hkv, rfl⟩
    exact ⟨kv, List.mem_of_mem_filter hkv, rfl⟩

/-- The cache after a bulk operation is either untouched or the written
slot. -/
theorem bulkCachedGet_cache_cases {V : Type} (key failMsg : String)
    (ttl retries : Nat) (attempts : Nat → Except String (Response V))
    (st : CacheStore V) (now : Nat) :
    (bulkCachedGet key failMsg ttl retries attempts st now).2.1 = st
    ∨ ∃ v, (bulkCachedGet key failMsg ttl retries attempts st now).2.1 =
        st.put_json key v now := by
  unfold bulkCachedGet
  cases hg : st.get_json key ttl now with
  | some v0 => left; rfl
  | none =>
    rcases hw : get_with_retry retries attempts with ⟨res, m⟩
    cases res with
    | error e => left; rfl
    | ok resp =>
      dsimp only
      by_cases hs : resp.statusSuccess
      · rw [if_pos hs]
        cases hb : resp.body with
        | error e => left; rfl
        | ok v1 => right; exact ⟨v1, rfl⟩
      · rw [if_neg hs]; left; rfl

/-- The two-slot key property is preserved by every client operation. -/
theorem stepCache_preserves {V : Type} (ttlN ttlR retries : Nat)
    (st : CacheStore V) (op : ClientOp V)
    (hst : ∀ k ∈ st.keys, k = "namespaces" ∨ k = "radar_rules") :
    ∀ k ∈ (stepCache ttlN ttlR retries st op).keys,
      k = "namespaces" ∨ k = "radar_rules" := by
  cases op with
  | allNamespaces att now =>
    intro k hk
    unfold stepCache get_all_namespaces at hk
    dsimp only at hk
    rcases bulkCachedGet_cache_cases "namespaces" "Failed to fetch namespaces"
        ttlN retries att st now with hc | ⟨v, hc⟩
    · rw [hc] at hk; exact hst k hk
    · rw [hc] at hk
      rcases mem_keys_put_json hk with h | h
      · exact Or.inl h
      · exact hst k h
  | allRadarRules att now =>
    intro k hk
    unfold stepCache get_all_radar_rules at hk
    dsimp only at hk
    rcases bulkCachedGet_cache_cases "radar_rules" "Failed to fetch radar rules"
        ttlR retries att st now with hc | ⟨v, hc⟩
    · rw [hc] at hk; exact hst k hk
    · rw [hc] at hk
      rcases mem_keys_put_json hk with h | h
      · exact Or.inr h
      · exact hst k h
  | oneNamespace att now => exact hst
  | oneRadarRule att now => exact hst
  | oneCategory att now => exact hst
  | feed att cr path now => exact hst

/-- The two-slot key property is preserved by any sequence of operations. -/
theorem runOps_preserves {V : Type} (ttlN ttlR retries : Nat) :
    ∀ (ops : List (ClientOp V)) (st : CacheStore V),
      (∀ k ∈ st.keys, k = "namespaces" ∨ k = "radar_rules") →
      ∀ k ∈ (runOps ttlN ttlR retries st ops).keys,
        k = "namespaces" ∨ k = "radar_rules" := by
  intro ops
  induction ops with
  | nil => intro st hst; exact hst
  | cons op rest ih =>
    intro st hst
    exact ih _ (stepCache_preserves ttlN ttlR retries st op hst)

/-- **C9.** Over every sequence of client operations started from the empty
cache, the cache only ever holds the keys `"namespaces"` and
`"radar_rules"` (written only by the two bulk operations), and the targeted
operations `get_namespace`, `get_radar_rule`, `get_category` (and
`get_feed`) leave the cache state unchanged — their embeddings
(`targetedGet`, `get_feed`) take no cache input at all, reflecting that
their source never reads the cache. -/
theorem cache_two_slots_invariant {V : Type} :
    (∀ (ttlN ttlR retries : Nat) (ops : List (ClientOp V)),
      ∀ k ∈ (runOps ttlN ttlR retries ⟨[]⟩ ops).keys,
        k = "namespaces" ∨ k = "radar_rules")
    ∧ (∀ (ttlN ttlR retries : Nat) (st : CacheStore V)
        (att : Nat → Except String (Response V))
        (attS : Nat → Except String (Response String))
        (cr : String → Option Channel) (path : String) (now : Nat),
      stepCache ttlN ttlR retries st (ClientOp.oneNamespace att now) = st
      ∧ stepCache ttlN ttlR retries st (ClientOp.oneRadarRule att now) = st
      ∧ stepCache ttlN ttlR retries st (ClientOp.oneCategory att now) = st
      ∧ stepCache ttlN ttlR retries st (ClientOp.feed attS cr path now) = st) := by
  constructor
  · intro ttlN ttlR retries ops
    exact runOps_preserves ttlN ttlR retries ops ⟨[]⟩ (by intro k hk; cases hk)
  · intro ttlN ttlR retries st att attS cr path now
    exact ⟨rfl, rfl, rfl, rfl⟩

/-- Witness for C9: one bulk fetch then a targeted lookup; the key set is
`["namespaces"]` and the targeted step is the identity on the cache. -/
theorem cache_two_slots_invariant_witness :
    ("namespaces" = "namespaces" ∨ "namespaces" = "radar_rules")
    ∧ stepCache 300 600 3 (CacheStore.mk [("namespaces", (5 : Nat), 0)])
        (ClientOp.oneNamespace (fun _ => Except.ok ⟨true, Except.ok 5⟩) 7) =
      ⟨[("namespaces", 5, 0)]⟩ :=
  ⟨cache_two_slots_invariant.1 300 600 3
      [ClientOp.allNamespaces (fun _ => Except.ok ⟨true, Except.ok 5⟩) 0]
      "namespaces" (by decide),
    (cache_two_slots_invariant.2 300 600 3 ⟨[("namespaces", 5, 0)]⟩
      (fun _ => Except.ok ⟨true, Except.ok 5⟩)
      (fun _ => Except.ok ⟨true, Except.ok ""⟩) (fun _ => none) "p" 7).1⟩

/-! ## Helper lemmas about hit collection (`handle_search_routes`) -/

/-- The catalog flattened into (namespace, route key, details) triples in
iteration order, skipping namespaces with `routes = None`. -/
def catalogRoutes (catalog : List (String × RoutesMap)) :
    List (String × String × RouteDetails) :=
  catalog.flatMap fun nsrm =>
    match nsrm.2.routes with
    | none => []
    | some routes => routes.map fun kd => (nsrm.1, kd.1, kd.2)

/-- While the quota is not yet reached, the inner loop appends the matching
prefix of the remaining routes, truncated to the room left. -/
theorem collectHits_eq (q : String) (limit : Nat) (ns : String) :
    ∀ (routes : List (String × RouteDetails)) (acc : List Hit),
      acc.length < limit →
      collectHits q limit ns routes acc =
        acc ++ (((routes.filter fun kd => routeMatches q kd.1 kd.2).map
          fun kd => mkHit ns kd.1 kd.2).take (limit - acc.length)) := by
  intro routes
  induction routes with
  | nil => intro acc hacc; simp [collectHits]
  | cons kd rest ih =>
    intro acc hacc
    rcases kd with ⟨key, d⟩
    rw [collectHits]
    by_cases hm : routeMatches q key d
    · rw [if_pos hm]
      dsimp only
      by_cases hfull : limit ≤ (acc ++ [mkHit ns key d]).length
      · rw [if_pos hfull]
        simp only [List.length_append, List.length_cons, List.length_nil] at hfull
        have hlim : limit - acc.length = 1 := by omega
        rw [List.filter_cons_of_pos (by simpa using hm), List.map_cons, hlim]
        simp
      · rw [if_neg hfull]
        simp only [List.length_append, List.length_cons, List.length_nil] at hfull
        rw [ih _ (by simp; omega)]
        rw [List.filter_cons_of_pos (by simpa using hm), List.map_cons]
        have hroom : limit - acc.length = (limit - (acc.length + 1)) + 1 := by omega
        rw [hroom, List.take_succ_cons]
        simp
    · rw [if_neg hm]
      rw [ih _ hacc, List.filter_cons_of_neg (by simpa using hm)]

/-- While the quota is not yet reached, the outer loop collects the matching
prefix of the flattened catalog, truncated to the room left. -/
theorem collectHitsAll_eq (q : String) (limit : Nat) :
    ∀ (catalog : List (String × RoutesMap)) (acc : List Hit),
      acc.length < limit →
      collectHitsAll q limit catalog acc =
        acc ++ ((((catalogRoutes catalog).filter fun t =>
            routeMatches q t.2.1 t.2.2).map
          fun t => mkHit t.1 t.2.1 t.2.2).take (limit - acc.length)) := by
  intro catalog
  induction catalog with
  | nil => intro acc hacc; simp [collectHitsAll, catalogRoutes]
  | cons nsrm rest ih =>
    intro acc hacc
    rcases nsrm with ⟨ns, rm⟩
    rw [collectHitsAll]
    cases hr : rm.routes with
    | none =>
      dsimp only
      rw [ih _ hacc]
      have : catalogRoutes ((ns, rm) :: rest) = catalogRoutes rest := by
        simp [catalogRoutes, hr]
      rw [this]
    | some routes =>
      dsimp only
      rw [collectHits_eq q limit ns routes acc hacc]
      have hflat : catalogRoutes ((ns, rm) :: rest) =
          (routes.map fun kd => (ns, kd.1, kd.2)) ++ catalogRoutes rest := by
        simp [catalogRoutes, hr]
      have hfm : (((routes.map fun kd => (ns, kd.1, kd.2)).filter fun t =>
            routeMatches q t.2.1 t.2.2).map fun t => mkHit t.1 t.2.1 t.2.2) =
          ((routes.filter fun kd => routeMatches q kd.1 kd.2).map
            fun kd => mkHit ns kd.1 kd.2) := by
        rw [List.filter_map, List.map_map]
        rfl
      set F := ((routes.filter fun kd => routeMatches q kd.1 kd.2).map
        fun kd => mkHit ns kd.1 kd.2)
      by_cases hfull : limit ≤ (acc ++ F.take (limit - acc.length)).length
      · rw [if_pos hfull]
        simp only [List.length_append, List.length_take] at hfull
        have hFlen : limit - acc.length ≤ F.length := by omega
        rw [hflat, List.filter_append, List.map_append, hfm,
          List.take_append_eq_append_take]
        have hz : limit - acc.length - F.length = 0 := by omega
        rw [hz, List.take_zero, List.append_nil]
      · rw [if_neg hfull]
        simp only [List.length_append, List.length_take] at hfull
        have hlt : F.length < limit - acc.length := by omega
        have htake : F.take (limit - acc.length) = F :=
          List.take_of_length_le (le_of_lt hlt)
        rw [htake]
        rw [ih (acc ++ F) (by simp; omega)]
        rw [hflat, List.filter_append, List.map_append, hfm,
          List.take_append_eq_append_take, htake]
        simp only [List.append_assoc, List.length_append]
        congr 3
        omega

/-- **C6 (amended).** For every `search_routes` call whose effective limit
(`limit.unwrap_or(20)`) is at least 1: the hit list is exactly the
first-`limit` prefix of the matching routes — a route is a hit iff the
lowercased query occurs in its key, name, description or example (missing
fields never match) — examined only in the given namespace when one is
given and across the whole catalog otherwise; hence at most `limit` hits
are returned, each from the right namespace and matching.  (The claim's
"for every limit" fails at `limit = 0`, where the post-push bound check
still admits one hit; see the counterexample.) -/
theorem search_routes_match_and_limit (query ns : String)
    (limitArg : Option Nat) (routesMap : RoutesMap)
    (catalog : List (String × RoutesMap)) (hlim : 1 ≤ limitArg.getD 20) :
    searchRoutesNsHits query ns limitArg routesMap =
      (((routesMap.routes.getD []).filter fun kd =>
          routeMatches (strToLower query) kd.1 kd.2).map
        fun kd => mkHit ns kd.1 kd.2).take (limitArg.getD 20)
    ∧ searchRoutesAllHits query limitArg catalog =
      (((catalogRoutes catalog).filter fun t =>
          routeMatches (strToLower query) t.2.1 t.2.2).map
        fun t => mkHit t.1 t.2.1 t.2.2).take (limitArg.getD 20)
    ∧ (searchRoutesNsHits query ns limitArg routesMap).length ≤ limitArg.getD 20
    ∧ (searchRoutesAllHits query limitArg catalog).length ≤ limitArg.getD 20
    ∧ ∀ h ∈ searchRoutesNsHits query ns limitArg routesMap,
        h.ns = ns ∧ ∃ d, (h.route_key, d) ∈ routesMap.routes.getD []
          ∧ routeMatches (strToLower query) h.route_key d = true := by
  have h1 : searchRoutesNsHits query ns limitArg routesMap =
      (((routesMap.routes.getD []).filter fun kd =>
          routeMatches (strToLower query) kd.1 kd.2).map
        fun kd => mkHit ns kd.1 kd.2).take (limitArg.getD 20) := by
    unfold searchRoutesNsHits
    cases hr : routesMap.routes with
    | none => simp
    | some routes =>
      dsimp only
      rw [collectHits_eq (strToLower query) (limitArg.getD 20) ns routes []
        (by simpa using hlim)]
      simp
  have h2 : searchRoutesAllHits query limitArg catalog =
      (((catalogRoutes catalog).filter fun t =>
          routeMatches (strToLower query) t.2.1 t.2.2).map
        fun t => mkHit t.1 t.2.1 t.2.2).take (limitArg.getD 20) := by
    unfold searchRoutesAllHits
    rw [collectHitsAll_eq (strToLower query) (limitArg.getD 20) catalog []
      (by simpa using hlim)]
    simp
  refine ⟨h1, h2, ?_, ?_, ?_⟩
  · rw [h1]; exact (List.length_take_le _ _)
  · rw [h2]; exact (List.length_take_le _ _)
  · intro h hmem
    rw [h1] at hmem
    have hmem' := List.mem_of_mem_take hmem
    rcases List.mem_map.mp hmem' with ⟨kd, hkd, rfl⟩
    rcases List.mem_filter.mp hkd with ⟨hkdmem, hkdmatch⟩
    exact ⟨rfl, kd.2, by simpa using hkdmem, by simpa using hkdmatch⟩

/-- A route whose key and name both contain the letter `a` (all the other
fields are absent). -/
def cSampleRoute : RouteDetails :=
  ⟨MultiType.single "/a", "alpha", none, [], none, none, none, none, none,
    none, none, none⟩

/-- Witness for C6 (amended) at limit 2 over a four-route namespace; the
hit list is the 2-prefix of the matching routes and its length is ≤ 2. -/
theorem search_routes_match_and_limit_witness :
    searchRoutesNsHits "a" "n" (some 2)
        ⟨some [("a", cSampleRoute), ("ab", cSampleRoute), ("zz", cSampleRoute),
          ("ac", cSampleRoute)]⟩ =
      ((([("a", cSampleRoute), ("ab", cSampleRoute), ("zz", cSampleRoute),
          ("ac", cSampleRoute)].filter fun kd =>
            routeMatches (strToLower "a") kd.1 kd.2).map
        fun kd => mkHit "n" kd.1 kd.2).take 2)
    ∧ (searchRoutesNsHits "a" "n" (some 2)
        ⟨some [("a", cSampleRoute), ("ab", cSampleRoute), ("zz", cSampleRoute),
          ("ac", cSampleRoute)]⟩).length ≤ 2 :=
  ⟨(search_routes_match_and_limit "a" "n" (some 2) _ [] (by decide)).1,
    (search_routes_match_and_limit "a" "n" (some 2) _ [] (by decide)).2.2.1⟩

/-- **C6, counterexample.** At `limit = 0` the collection loop still returns
one hit for a matching route, because the `hits.len() >= limit` bound is
checked only after the hit is pushed; so "the number of returned hits is at
most limit" fails for `limit = 0`. -/
theorem search_routes_limit_zero_counterexample :
    searchRoutesNsHits "a" "n" (some 0) ⟨some [("a", cSampleRoute)]⟩ =
      [⟨"n", "a", "alpha", none, none⟩]
    ∧ ¬ (searchRoutesNsHits "a" "n" (some 0)
        ⟨some [("a", cSampleRoute)]⟩).length ≤ 0 := by
  constructor
  · rfl
  · decide

/-! ## Helper lemmas about the suggestion ranking (`handle_suggest_route_keys`) -/

instance (p : String) : IsTotal String (suggestLe p) :=
  ⟨fun a b => by unfold suggestLe tupLe; omega⟩

instance (p : String) : IsTrans String (suggestLe p) :=
  ⟨fun a b c => by unfold suggestLe tupLe; omega⟩

/-- A prefix occurrence is in particular a substring occurrence. -/
theorem isInfixList_of_isPrefixList (n : List Char) :
    ∀ h, isPrefixList n h = true → isInfixList n h = true := by
  intro h
  cases h with
  | nil => intro hp; rw [isInfixList]; exact hp
  | cons b rest => intro hp; rw [isInfixList, hp, Bool.true_or]

/-- Rust `starts_with` implies `contains`. -/
theorem strContains_of_strStartsWith {hay needle : String}
    (h : strStartsWith hay needle = true) : strContains hay needle = true :=
  isInfixList_of_isPrefixList needle.data hay.data h

/-- If `a` may not be placed before `b`, their ranking tuples differ. -/
theorem suggestKey_ne_of_not_le {p a b : String}
    (h : ¬ suggestLe p a b) : suggestKey p b ≠ suggestKey p a := by
  intro heq
  apply h
  unfold suggestLe
  rw [← heq]
  unfold tupLe
  omega

/-- Inserting an element commutes with filtering by an exact ranking tuple:
the inserted element lands in front of all elements of its tuple class, and
the other classes are untouched.  (This is the stability of
`orderedInsert` for the ranking preorder.) -/
theorem filter_orderedInsert_suggest (p : String) (t : Nat × Nat × Nat)
    (a : String) :
    ∀ l : List String,
      (List.orderedInsert (suggestLe p) a l).filter
          (fun k => decide (suggestKey p k = t)) =
        if suggestKey p a = t then
          a :: l.filter (fun k => decide (suggestKey p k = t))
        else l.filter (fun k => decide (suggestKey p k = t)) := by
  intro l
  induction l with
  | nil =>
    rw [List.orderedInsert]
    by_cases ha : suggestKey p a = t
    · rw [if_pos ha]; simp [List.filter, ha]
    · rw [if_neg ha]; simp [List.filter, ha]
  | cons b bs ih =>
    rw [List.orderedInsert]
    by_cases hle : suggestLe p a b
    · rw [if_pos hle]
      by_cases ha : suggestKey p a = t
      · rw [if_pos ha]; simp [List.filter_cons, ha]
      · rw [if_neg ha]; simp [List.filter_cons, ha]
    · rw [if_neg hle]
      have hne : suggestKey p b ≠ suggestKey p a := suggestKey_ne_of_not_le hle
      by_cases ha : suggestKey p a = t
      · rw [if_pos ha]
        have hb : ¬ suggestKey p b = t := by rw [← ha] at *; exact hne
        rw [List.filter_cons_of_neg (by simpa using hb),
          List.filter_cons_of_neg (by simpa using hb), ih, if_pos ha]
      · rw [if_neg ha]
        rw [List.filter_cons, List.filter_cons, ih, if_neg ha]

/-- Stability of the insertion sort used by `suggest_route_keys`: within
each ranking-tuple class the original key order is preserved. -/
theorem filter_insertionSort_suggest (p : String) (t : Nat × Nat × Nat) :
    ∀ keys : List String,
      (List.insertionSort (suggestLe p) keys).filter
          (fun k => decide (suggestKey p k = t)) =
        keys.filter (fun k => decide (suggestKey p k = t)) := by
  intro keys
  induction keys with
  | nil => rfl
  | cons a l ih =>
    rw [List.insertionSort, filter_orderedInsert_suggest p t a _]
    by_cases ha : suggestKey p a = t
    · rw [if_pos ha, ih, List.filter_cons_of_pos (by simpa using ha)]
    · rw [if_neg ha, ih, List.filter_cons_of_neg (by simpa using ha)]

/-- **C7.** `handle_suggest_route_keys` returns the first `limit` keys of a
stable ascending sort of the namespace's keys by the tuple
(contains? 0 : 1, starts-with? 0 : 1, |length difference|): the sorted list
is a permutation of the keys, sorted by the tuple order (so ties in the
first two components are broken by closeness in length), preserving
original order inside every tuple class; in particular every key starting
with the lowercased partial is placed strictly before every key that
merely contains it, and the latter strictly before every key not containing
it at all. -/
theorem suggest_route_keys_ranking (partialArg : String) (limitArg : Option Nat)
    (keys : List String) :
    handle_suggest_route_keys partialArg limitArg keys =
      (suggestSorted partialArg keys).take (limitArg.getD 10)
    ∧ (suggestSorted partialArg keys).Perm keys
    ∧ List.Sorted (suggestLe (strToLower partialArg))
        (suggestSorted partialArg keys)
    ∧ (∀ t : Nat × Nat × Nat,
        (suggestSorted partialArg keys).filter
            (fun k => decide (suggestKey (strToLower partialArg) k = t)) =
          keys.filter
            (fun k => decide (suggestKey (strToLower partialArg) k = t)))
    ∧ (∀ (i j : Nat) (hi : i < (suggestSorted partialArg keys).length)
        (hj : j < (suggestSorted partialArg keys).length),
        strStartsWith (strToLower ((suggestSorted partialArg keys).get ⟨i, hi⟩))
            (strToLower partialArg) = true →
        strContains (strToLower ((suggestSorted partialArg keys).get ⟨j, hj⟩))
            (strToLower partialArg) = true →
        strStartsWith (strToLower ((suggestSorted partialArg keys).get ⟨j, hj⟩))
            (strToLower partialArg) = false →
        i < j)
    ∧ (∀ (i j : Nat) (hi : i < (suggestSorted partialArg keys).length)
        (hj : j < (suggestSorted partialArg keys).length),
        strContains (strToLower ((suggestSorted partialArg keys).get ⟨i, hi⟩))
            (strToLower partialArg) = true →
        strContains (strToLower ((suggestSorted partialArg keys).get ⟨j, hj⟩))
            (strToLower partialArg) = false →
        i < j) := by
  have hsorted : List.Sorted (suggestLe (strToLower partialArg))
      (suggestSorted partialArg keys) :=
    List.sorted_insertionSort (suggestLe (strToLower partialArg)) keys
  refine ⟨rfl, List.perm_insertionSort _ keys, hsorted,
    fun t => filter_insertionSort_suggest (strToLower partialArg) t keys,
    ?_, ?_⟩
  · intro i j hi hj hsi hcj hsj
    by_contra hij
    have hji : j ≤ i := Nat.le_of_not_lt hij
    rcases Nat.eq_or_lt_of_le hji with heq | hlt
    · subst heq
      rw [hsi] at hsj
      cases hsj
    · have hrel := hsorted.rel_get_of_lt
        (show (⟨j, hj⟩ : Fin _) < ⟨i, hi⟩ from hlt)
      have hci : strContains
          (strToLower ((suggestSorted partialArg keys).get ⟨i, hi⟩))
          (strToLower partialArg) = true := strContains_of_strStartsWith hsi
      simp only [List.get_eq_getElem] at hci hcj hsi hsj
      unfold suggestLe suggestKey at hrel
      simp [hci, hcj, hsi, hsj] at hrel
      unfold tupLe at hrel
      dsimp only at hrel
      omega
  · intro i j hi hj hci hcj
    by_contra hij
    have hji : j ≤ i := Nat.le_of_not_lt hij
    rcases Nat.eq_or_lt_of_le hji with heq | hlt
    · subst heq
      rw [hci] at hcj
      cases hcj
    · have hrel := hsorted.rel_get_of_lt
        (show (⟨j, hj⟩ : Fin _) < ⟨i, hi⟩ from hlt)
      simp only [List.get_eq_getElem] at hci hcj
      unfold suggestLe suggestKey at hrel
      simp [hci, hcj] at hrel
      unfold tupLe at hrel
      dsimp only at hrel
      omega

/-- Witness for C7 on the keys `["alive", "xray", "live/x"]` against the
partial `"live"`: the sort places the starts-with key first, the
contains-only key second and the unrelated key last. -/
theorem suggest_route_keys_ranking_witness :
    suggestSorted "live" ["alive", "xray", "live/x"] = ["live/x", "alive", "xray"]
    ∧ (0 : Nat) < 1 ∧ (1 : Nat) < 2 :=
  ⟨by decide,
    (suggest_route_keys_ranking "live" (some 5) ["alive", "xray", "live/x"]).2.2.2.2.1
      0 1 (by decide) (by decide) (by decide) (by decide) (by decide),
    (suggest_route_keys_ranking "live" (some 5) ["alive", "xray", "live/x"]).2.2.2.2.2
      1 2 (by decide) (by decide) (by decide) (by decide)⟩

/-- **C8.** `search_namespaces`: with no query the result lists every
namespace key with the total count; with a query the filtered set is
exactly the keys containing the lowercased query (case-insensitive); a
non-matching query produces the zero-matches message that also lists every
available key; and on the catalog `{"bilibili", "twitter", "github"}` the
query `"bili"` selects exactly `{"bilibili"}`. -/
theorem search_namespaces_filter (query : String) (keys : List String) :
    (∀ k, k ∈ searchNamespacesFiltered query keys ↔
      k ∈ keys ∧ strContains (strToLower k) (strToLower query) = true)
    ∧ handle_search_namespaces none keys =
      "Available namespaces (" ++ toString keys.length ++ " total):\n" ++
        String.intercalate ", " keys
    ∧ (searchNamespacesFiltered query keys = [] →
      handle_search_namespaces (some query) keys =
        "No namespaces found matching '" ++ query ++
          "'. Available namespaces: " ++ String.intercalate ", " keys)
    ∧ (searchNamespacesFiltered query keys ≠ [] →
      handle_search_namespaces (some query) keys =
        "Namespaces matching '" ++ query ++ "':\n" ++
          String.intercalate "\n" (searchNamespacesFiltered query keys))
    ∧ searchNamespacesFiltered "bili" ["bilibili", "twitter", "github"] =
        ["bilibili"] := by
  refine ⟨?_, rfl, ?_, ?_, by decide⟩
  · intro k
    unfold searchNamespacesFiltered
    rw [List.mem_filter]
  · intro hempty
    unfold handle_search_namespaces
    dsimp only
    rw [hempty]
    rfl
  · intro hne
    unfold handle_search_namespaces
    dsimp only
    rw [if_neg (by simpa [List.isEmpty_iff] using hne)]

/-- Witness for C8 on the catalog `["bilibili", "twitter", "github"]` with
query `"bili"`: the membership characterization at `"bilibili"` and the
rendered match message. -/
theorem search_namespaces_filter_witness :
    ("bilibili" ∈ searchNamespacesFiltered "bili" ["bilibili", "twitter", "github"] ↔
      "bilibili" ∈ ["bilibili", "twitter", "github"]
        ∧ strContains (strToLower "bilibili") (strToLower "bili") = true)
    ∧ handle_search_namespaces (some "bili") ["bilibili", "twitter", "github"] =
      "Namespaces matching 'bili':\nbilibili" :=
  ⟨(search_namespaces_filter "bili" ["bilibili", "twitter", "github"]).1 "bilibili",
    by
      rw [(search_namespaces_filter "bili" ["bilibili", "twitter", "github"]).2.2.2.1
        (by decide)]
      rfl⟩

/-- **C10.** The `get_radar_rule` tool accepts `"domain"` as an alias for
`"rule_name"`: a string-valued `rule_name` wins, otherwise a string-valued
`domain` is used, and the invalid-params rejection happens exactly when
neither argument is present as a string. -/
theorem get_radar_rule_domain_alias (args : ToolArgs) :
    (∀ s, getStrArg args "rule_name" = some s →
      dispatchTool "get_radar_rule" args =
        Except.ok (CompCall.getRadarRule s (getStrArg args "format")))
    ∧ (getStrArg args "rule_name" = none → ∀ d,
      getStrArg args "domain" = some d →
      dispatchTool "get_radar_rule" args =
        Except.ok (CompCall.getRadarRule d (getStrArg args "format")))
    ∧ (dispatchTool "get_radar_rule" args =
        Except.error (MCPError.invalidParams
          "rule_name or domain parameter is required")
      ↔ getStrArg args "rule_name" = none ∧ getStrArg args "domain" = none) := by
  refine ⟨?_, ?_, ?_⟩
  · intro s hs
    show (match (getStrArg args "rule_name").orElse
        (fun _ => getStrArg args "domain") with
      | none => Except.error (MCPError.invalidParams
          "rule_name or domain parameter is required")
      | some ruleName =>
        Except.ok (CompCall.getRadarRule ruleName (getStrArg args "format"))) = _
    rw [hs]
    rfl
  · intro hn d hd
    show (match (getStrArg args "rule_name").orElse
        (fun _ => getStrArg args "domain") with
      | none => Except.error (MCPError.invalidParams
          "rule_name or domain parameter is required")
      | some ruleName =>
        Except.ok (CompCall.getRadarRule ruleName (getStrArg args "format"))) = _
    rw [hn]
    show (match getStrArg args "domain" with
      | none => Except.error (MCPError.invalidParams
          "rule_name or domain parameter is required")
      | some ruleName =>
        Except.ok (CompCall.getRadarRule ruleName (getStrArg args "format"))) = _
    rw [hd]
  · constructor
    · intro herr
      cases hr : getStrArg args "rule_name" with
      | some s =>
        rw [(by
          show (match (getStrArg args "rule_name").orElse
              (fun _ => getStrArg args "domain") with
            | none => Except.error (MCPError.invalidParams
                "rule_name or domain parameter is required")
            | some ruleName =>
              Except.ok (CompCall.getRadarRule ruleName (getStrArg args "format"))) = _
          rw [hr]
          rfl : dispatchTool "get_radar_rule" args =
            Except.ok (CompCall.getRadarRule s (getStrArg args "format")))] at herr
        cases herr
      | none =>
        cases hd : getStrArg args "domain" with
        | some d =>
          rw [(by
            show (match (getStrArg args "rule_name").orElse
                (fun _ => getStrArg args "domain") with
              | none => Except.error (MCPError.invalidParams
                  "rule_name or domain parameter is required")
              | some ruleName =>
                Except.ok (CompCall.getRadarRule ruleName (getStrArg args "format"))) = _
            rw [hr]
            show (match getStrArg args "domain" with
              | none => Except.error (MCPError.invalidParams
                  "rule_name or domain parameter is required")
              | some ruleName =>
                Except.ok (CompCall.getRadarRule ruleName (getStrArg args "format"))) = _
            rw [hd] : dispatchTool "get_radar_rule" args =
              Except.ok (CompCall.getRadarRule d (getStrArg args "format")))] at herr
          cases herr
        | none => exact ⟨rfl, rfl⟩
    · rintro ⟨hr, hd⟩
      show (match (getStrArg args "rule_name").orElse
          (fun _ => getStrArg args "domain") with
        | none => Except.error (MCPError.invalidParams
            "rule_name or domain parameter is required")
        | some ruleName =>
          Except.ok (CompCall.getRadarRule ruleName (getStrArg args "format"))) = _
      rw [hr]
      show (match getStrArg args "domain" with
        | none => Except.error (MCPError.invalidParams
            "rule_name or domain parameter is required")
        | some ruleName =>
          Except.ok (CompCall.getRadarRule ruleName (getStrArg args "format"))) = _
      rw [hd]

/-- Witness for C10: a call carrying only `domain = "81.cn"` dispatches with
that domain, and a call with no arguments at all is rejected with
invalid-params. -/
theorem get_radar_rule_domain_alias_witness :
    dispatchTool "get_radar_rule" (some [("domain", JVal.str "81.cn")]) =
      Except.ok (CompCall.getRadarRule "81.cn" none)
    ∧ (dispatchTool "get_radar_rule" none =
        Except.error (MCPError.invalidParams
          "rule_name or domain parameter is required")
      ↔ True) :=
  ⟨(get_radar_rule_domain_alias (some [("domain", JVal.str "81.cn")])).2.1
      rfl "81.cn" rfl,
    by
      rw [(get_radar_rule_domain_alias none).2.2]
      simp [getStrArg]⟩

/-- **C1, counterexample.** An argument-validation failure and an unknown
tool name are NOT converted into a successful `"Error: ..."` envelope:
`handle_tool_call` returns them as protocol-level `Err(MCPError)` values
(the source uses `?` and `return Err(...)` for these, and only component
errors reach the envelope-wrapping `match`). -/
theorem handle_tool_call_protocol_errors_counterexample :
    handle_tool_call (fun _ => Except.ok "") "get_namespace" none =
      Except.error (MCPError.invalidParams "namespace parameter is required")
    ∧ handle_tool_call (fun _ => Except.ok "") "bogus_tool" none =
      Except.error (MCPError.methodNotFound "Unknown tool: bogus_tool") := by
  constructor
  · rfl
  · rfl

/-- **C1 (amended).** Once argument extraction names a component call,
every component failure is converted into a successfully-returned envelope
with body `"Error: <message>"` and `is_error = true`, and a component
success into a non-error envelope; but an argument-validation failure or an
unrecognized tool name is propagated as a protocol-level error
(invalid-params / method-not-found) instead of an in-band envelope. -/
theorem handle_tool_call_error_envelope
    (comp : CompCall → Except String String) (name : String) (args : ToolArgs)
    (call : CompCall) :
    (dispatchTool name args = Except.ok call →
      ∀ e, comp call = Except.error e →
        handle_tool_call comp name args =
          Except.ok ⟨["Error: " ++ e], some true⟩)
    ∧ (dispatchTool name args = Except.ok call →
      ∀ s, comp call = Except.ok s →
        handle_tool_call comp name args = Except.ok ⟨[s], some false⟩)
    ∧ (∀ mcpErr, dispatchTool name args = Except.error mcpErr →
        handle_tool_call comp name args = Except.error mcpErr) := by
  refine ⟨?_, ?_, ?_⟩
  · intro hdisp e he
    unfold handle_tool_call
    rw [hdisp]
    dsimp only
    unfold wrapResult
    rw [he]
  · intro hdisp s hs
    unfold handle_tool_call
    rw [hdisp]
    dsimp only
    unfold wrapResult
    rw [hs]
  · intro mcpErr hdisp
    unfold handle_tool_call
    rw [hdisp]

/-- Witness for C1 (amended): a component failure `"boom"` on
`get_all_namespaces` becomes the in-band `"Error: boom"` envelope with the
error flag set. -/
theorem handle_tool_call_error_envelope_witness :
    handle_tool_call (fun _ => Except.error "boom") "get_all_namespaces" none =
      Except.ok ⟨["Error: boom"], some true⟩ :=
  (handle_tool_call_error_envelope (fun _ => Except.error "boom")
    "get_all_namespaces" none CompCall.getAllNamespaces).1 rfl "boom" rfl

end Rsshub
